import Mathlib

/-!
Verification of the `ai-chatbot` Streamlit application (`src/app.py`).

The application is UI glue around an external tokenizer/model pair
(`transformers` `AutoTokenizer` / `AutoModelForCausalLM`).  We embed the
repository's own logic shallowly:

* Python exceptions raised by the external library are modelled by
  `Except String`; the `try/except` in `generate_response` becomes a `match`
  on the pipeline's result.
* The external tokenizer and model are abstract structures.  Where a claim
  depends on documented behaviour of the library (for example, that
  causal-LM `generate` returns its input followed by newly generated tokens,
  or that `skip_special_tokens=True` drops all special-token ids before
  detokenisation) that behaviour appears either as an explicit hypothesis or
  as part of the structural modelling, noted at the definition.
* Streamlit session state (`st.session_state`) becomes an explicit
  `SessionState` record; each button handler becomes a state-transition
  function.
-/

/-- A token id, as produced by `tokenizer.encode`. -/
abbrev Token := Nat

/-- Generation keyword arguments passed to `model.generate` in
`generate_response` (`src/app.py` lines 56-65).  The Python call passes
`max_length`, `num_beams=3`, `no_repeat_ngram_size=2`, `temperature=0.7`,
`do_sample=True`, `pad_token_id` and `eos_token_id`; temperature is modelled
as the exact rational 7/10. -/
structure GenConfig where
  max_length : Nat
  num_beams : Nat
  no_repeat_ngram_size : Nat
  temperature : ℚ
  do_sample : Bool
  pad_token_id : Token
  eos_token_id : Token
  deriving Repr, DecidableEq

/-- Abstract interface of the Hugging Face tokenizer used by the app.
`encode` and `decodeRaw` may raise (model the Python exception as
`Except.error`).  `decodeRaw` is detokenisation *without* special-token
skipping; the call site models `skip_special_tokens=True` by filtering
`special_tokens` out first, which is that flag's documented behaviour.
`eos_mem` records that the end-of-turn token id is one of the tokenizer's
special tokens, as it is for every Hugging Face tokenizer. -/
structure Tokenizer where
  encode : String → Except String (List Token)
  decodeRaw : List Token → Except String String
  eos_token : String
  eos_token_id : Token
  pad_token_id : Token
  special_tokens : List Token
  eos_mem : eos_token_id ∈ special_tokens

/-- Abstract interface of the causal language model: `generate` receives the
keyword arguments and the input token sequence and either returns the output
sequence or raises. -/
structure Model where
  generate : GenConfig → List Token → Except String (List Token)

/-- The fixed decoding policy built at the `model.generate` call site
(`src/app.py` lines 56-65): everything except `max_length` is a literal
constant or comes from the (process-cached) tokenizer. -/
def generationConfig (tokenizer : Tokenizer) (max_length : Nat) : GenConfig :=
  { max_length := max_length
    num_beams := 3
    no_repeat_ngram_size := 2
    temperature := 7/10
    do_sample := true
    pad_token_id := tokenizer.pad_token_id
    eos_token_id := tokenizer.eos_token_id }

/-- The body of the `try` block of `generate_response` (`src/app.py`
lines 47-70): encode the user turn with the end-of-turn marker appended,
concatenate onto prior history when present, generate, then decode only the
span beyond the input length with special tokens skipped.  Returns the
decoded response together with the full output token sequence. -/
def responsePipeline (tokenizer : Tokenizer) (model : Model)
    (chat_history : Option (List Token)) (user_input : String)
    (max_length : Nat) : Except String (String × List Token) :=
  match tokenizer.encode (user_input ++ tokenizer.eos_token) with
  | .error e => .error e
  | .ok new_user_input_ids =>
    let bot_ids : List Token :=
      match chat_history with
      | some h => h ++ new_user_input_ids
      | none => new_user_input_ids
    match model.generate (generationConfig tokenizer max_length) bot_ids with
    | .error e => .error e
    | .ok chat_history_ids =>
      match tokenizer.decodeRaw
          ((chat_history_ids.drop bot_ids.length).filter
            (fun t => !decide (t ∈ tokenizer.special_tokens))) with
      | .error e => .error e
      | .ok response => .ok (response, chat_history_ids)

/-- `generate_response` (`src/app.py` lines 45-72): run the pipeline; on any
exception return the apology string built from the exception text, with the
history component `None`. -/
def generate_response (tokenizer : Tokenizer) (model : Model)
    (chat_history : Option (List Token)) (user_input : String)
    (max_length : Nat := 1000) : String × Option (List Token) :=
  match responsePipeline tokenizer model chat_history user_input max_length with
  | .ok (response, chat_history_ids) => (response, some chat_history_ids)
  | .error e => ("Sorry, I encountered an error: " ++ e, none)

/-- Speaker of a conversation turn: the strings `"user"` / `"ai"` used in
`st.session_state.chat_history` entries. -/
inductive Role where
  | user
  | ai
  deriving Repr, DecidableEq

/-- The per-session Streamlit state initialised in `main`
(`src/app.py` lines 87-92): the displayed turn list, the model-side token
history tensor (absent until the first successful generation), and the
exchange counter. -/
structure SessionState where
  chat_history : List (Role × String)
  model_chat_history : Option (List Token)
  conversation_count : Nat
  deriving Repr, DecidableEq

/-- The freshly initialised session (`src/app.py` lines 87-92). -/
def initState : SessionState :=
  { chat_history := []
    model_chat_history := none
    conversation_count := 0 }

/-- The `Clear Chat History` button handler (`src/app.py` lines 111-115). -/
def clearHistory (_s : SessionState) : SessionState :=
  { chat_history := []
    model_chat_history := none
    conversation_count := 0 }

/-- The `Messages Exchanged` metric (`src/app.py` line 118). -/
def messagesExchanged (s : SessionState) : Nat :=
  s.chat_history.length

/-- Result of `load_chatbot` (`src/app.py` lines 28-43): either the cached
tokenizer/model pair or the `(None, None)` failure value. -/
inductive LoadResult where
  | loaded (tokenizer : Tokenizer) (model : Model)
  | failed

/-- What the send handler displayed/did besides updating session state:
`rerun` for the successful branch (`st.rerun()`), `loadError` for the
page-level error when `load_chatbot` returned `(None, None)`. -/
inductive SendOutcome where
  | rerun
  | loadError
  deriving Repr, DecidableEq

/-- The send handler (`src/app.py` lines 188-210): when the model pair is
loaded, append the user turn, call `generate_response`, append the assistant
turn, store the new token history and bump the counter; otherwise leave the
session untouched and show a page-level error. -/
def sendMessageFull (load : LoadResult) (s : SessionState)
    (user_input : String) (max_length : Nat) : SessionState × SendOutcome :=
  match load with
  | .failed => (s, .loadError)
  | .loaded tokenizer model =>
    let result := generate_response tokenizer model s.model_chat_history
      user_input max_length
    ({ chat_history :=
        s.chat_history ++ [(Role.user, user_input), (Role.ai, result.1)]
       model_chat_history := result.2
       conversation_count := s.conversation_count + 1 },
     .rerun)

/-- The session-state part of the send handler. -/
def sendMessage (load : LoadResult) (s : SessionState)
    (user_input : String) (max_length : Nat) : SessionState :=
  (sendMessageFull load s user_input max_length).1

/-- A sequence of sends with a fixed load result and slider value, folding
the send handler over the user inputs in order. -/
def runSends (load : LoadResult) (max_length : Nat) (inputs : List String)
    (s : SessionState) : SessionState :=
  inputs.foldl (fun st inp => sendMessage load st inp max_length) s

/-- The session states reachable through the UI: the fresh session, clearing,
and sending (with any load result, input and slider value). -/
inductive Reachable : SessionState → Prop where
  | init : Reachable initState
  | clear {s : SessionState} : Reachable s → Reachable (clearHistory s)
  | send {s : SessionState} (load : LoadResult) (user_input : String)
      (max_length : Nat) : Reachable s →
      Reachable (sendMessage load s user_input max_length)

/-- Length of the token history, an absent history counting as empty. -/
def tokenHistoryLength (h : Option (List Token)) : Nat :=
  (h.getD []).length

/-- The generation input as the spec describes it: prior token history
concatenated with the newly encoded tokens when history is present, the new
tokens alone when it is absent. -/
def botInput (chat_history : Option (List Token)) (new_ids : List Token) :
    List Token :=
  match chat_history with
  | some h => h ++ new_ids
  | none => new_ids

/-- Turn-list shape produced by repeated sends: for each exchange one user
entry followed by one assistant entry. -/
def turnPairs (l : List (String × String)) : List (Role × String) :=
  match l with
  | [] => []
  | (u, a) :: rest => (Role.user, u) :: (Role.ai, a) :: turnPairs rest

/-- A turn list alternates user and assistant entries starting with a user
entry. -/
def alternatesFromUser (l : List (Role × String)) : Prop :=
  ∀ i, (h : i < l.length) →
    (l.get ⟨i, h⟩).1 = (if i % 2 = 0 then Role.user else Role.ai)

/-- Concrete tokenizer used to evaluate the embedding on closed inputs:
character-code encoding, with `"!"` (id 33) as the end-of-turn token and the
only special token. -/
def testTokenizer : Tokenizer where
  encode s := Except.ok (s.toList.map Char.toNat)
  decodeRaw ts := Except.ok (String.mk (ts.map Char.ofNat))
  eos_token := "!"
  eos_token_id := 33
  pad_token_id := 33
  special_tokens := [33]
  eos_mem := by decide

/-- Concrete model that always succeeds, returning its input extended with
one generated token (id 55, the character `'7'`). -/
def okModel : Model where
  generate _ inp := Except.ok (inp ++ [55])

/-- Concrete model that always raises. -/
def failModel : Model where
  generate _ _ := Except.error "boom"

/-- Concrete model that succeeds on short inputs and raises on longer ones,
so a session can have a successful send followed by a failing one. -/
def flakyModel : Model where
  generate _ inp :=
    if inp.length ≤ 3 then Except.ok (inp ++ [55]) else Except.error "boom"

/-- The always-succeeding model returns an extension of its input, as a
causal-LM `generate` does. -/
theorem okModel_extends :
    ∀ cfg inp out, okModel.generate cfg inp = Except.ok out → inp <+: out := by
  intro cfg inp out h
  simp only [okModel, Except.ok.injEq] at h
  rw [← h]
  exact List.prefix_append _ _

/-- C4: the clear-history action resets the turn list to empty, the token
history to absent, the displayed message-count metric to 0, and the exchange
counter to 0, from any prior state. -/
theorem clear_resets_session (s : SessionState) :
    (clearHistory s).chat_history = []
    ∧ (clearHistory s).model_chat_history = none
    ∧ messagesExchanged (clearHistory s) = 0
    ∧ (clearHistory s).conversation_count = 0 :=
  ⟨rfl, rfl, rfl, rfl⟩

/-- C5: when model loading fails, a send leaves the session state unchanged
(in particular appends no turns) and shows a page-level error instead. -/
theorem load_failure_leaves_state (s : SessionState) (user_input : String)
    (max_length : Nat) :
    sendMessageFull .failed s user_input max_length = (s, .loadError)
    ∧ sendMessage .failed s user_input max_length = s
    ∧ (sendMessage .failed s user_input max_length).chat_history
        = s.chat_history :=
  ⟨rfl, rfl, rfl⟩

/-- C8: every generation call uses the fixed decoding policy — beam count 3,
no-repeat n-gram size 2, temperature 0.7, sampling enabled — together with
the caller-supplied maximum length; with the same (process-cached) tokenizer,
two calls' configurations differ in nothing but the maximum length. -/
theorem fixed_decoding_policy (tokenizer : Tokenizer) (max_length : Nat) :
    (generationConfig tokenizer max_length).num_beams = 3
    ∧ (generationConfig tokenizer max_length).no_repeat_ngram_size = 2
    ∧ (generationConfig tokenizer max_length).temperature = 7/10
    ∧ (generationConfig tokenizer max_length).do_sample = true
    ∧ (generationConfig tokenizer max_length).max_length = max_length
    ∧ ∀ ml2, generationConfig tokenizer ml2
        = { generationConfig tokenizer max_length with max_length := ml2 } :=
  ⟨rfl, rfl, rfl, rfl, rfl, fun _ => rfl⟩

/-- Unfolding lemma: the pipeline is the bind-chain of encode, generate on
the concatenated input, and decode of the new span. -/
theorem responsePipeline_bind (tokenizer : Tokenizer) (model : Model)
    (hist : Option (List Token)) (input : String) (ml : Nat) :
    responsePipeline tokenizer model hist input ml =
      match tokenizer.encode (input ++ tokenizer.eos_token) with
      | .error e => .error e
      | .ok enc =>
        match model.generate (generationConfig tokenizer ml) (botInput hist enc) with
        | .error e => .error e
        | .ok out =>
          match tokenizer.decodeRaw ((out.drop (botInput hist enc).length).filter
              (fun t => !decide (t ∈ tokenizer.special_tokens))) with
          | .error e => .error e
          | .ok r => .ok (r, out) := by
  unfold responsePipeline botInput
  cases hist <;> rfl

/-- Inversion: a successful pipeline run yields a successful encode, a
successful generate on the concatenated input, and a successful decode of
the span beyond the input length. -/
theorem responsePipeline_ok_inv (tokenizer : Tokenizer) (model : Model)
    (hist : Option (List Token)) (input : String) (ml : Nat)
    (r : String) (out : List Token)
    (hok : responsePipeline tokenizer model hist input ml = Except.ok (r, out)) :
    ∃ enc, tokenizer.encode (input ++ tokenizer.eos_token) = Except.ok enc
      ∧ model.generate (generationConfig tokenizer ml) (botInput hist enc)
          = Except.ok out
      ∧ tokenizer.decodeRaw ((out.drop (botInput hist enc).length).filter
          (fun t => !decide (t ∈ tokenizer.special_tokens))) = Except.ok r := by
  rw [responsePipeline_bind] at hok
  split at hok
  · exact absurd hok (by simp)
  next enc henc =>
    split at hok
    · exact absurd hok (by simp)
    next out0 hgen =>
      split at hok
      · exact absurd hok (by simp)
      next r0 hdec =>
        have h1 : r0 = r ∧ out0 = out := by
          have := hok
          simp only [Except.ok.injEq, Prod.mk.injEq] at this
          exact this
        obtain ⟨hr, ho⟩ := h1
        subst hr; subst ho
        exact ⟨enc, henc, hgen, hdec⟩

/-- Claim C7: on every send the response generator encodes the user text
with the end-of-turn marker appended, and the generation input is the prior
token history concatenated with these new tokens when history is present,
or the new tokens alone when history is absent. -/
theorem generation_input_is_history_concat (tokenizer : Tokenizer)
    (model : Model) (hist : Option (List Token)) (input : String) (ml : Nat) :
    responsePipeline tokenizer model hist input ml =
      (tokenizer.encode (input ++ tokenizer.eos_token)).bind (fun enc =>
        (model.generate (generationConfig tokenizer ml)
            (botInput hist enc)).bind (fun out =>
          (tokenizer.decodeRaw ((out.drop (botInput hist enc).length).filter
              (fun t => !decide (t ∈ tokenizer.special_tokens)))).map
            (fun r => (r, out))))
    ∧ (∀ h enc, botInput (some h) enc = h ++ enc)
    ∧ (∀ enc, botInput none enc = enc) := by
  refine ⟨?_, fun _ _ => rfl, fun _ => rfl⟩
  rw [responsePipeline_bind]
  cases tokenizer.encode (input ++ tokenizer.eos_token) with
  | error e => rfl
  | ok enc =>
    dsimp only [Except.bind]
    cases model.generate (generationConfig tokenizer ml) (botInput hist enc) with
    | error e => rfl
    | ok out =>
      dsimp only [Except.bind]
      cases tokenizer.decodeRaw ((out.drop (botInput hist enc).length).filter
          (fun t => !decide (t ∈ tokenizer.special_tokens))) with
      | error e => rfl
      | ok r => rfl

/-- Claim C9: the response generator always returns a (text, history) pair
(exceptions are caught internally), and the returned history is `none`
exactly when the internal pipeline raised; on success it is the non-absent
generation output. -/
theorem generate_response_total (tokenizer : Tokenizer) (model : Model)
    (hist : Option (List Token)) (input : String) (ml : Nat) :
    ((generate_response tokenizer model hist input ml).2 = none ↔
      ∃ e, responsePipeline tokenizer model hist input ml = Except.error e)
    ∧ ∀ r out,
        responsePipeline tokenizer model hist input ml = Except.ok (r, out) →
        generate_response tokenizer model hist input ml = (r, some out) := by
  cases h : responsePipeline tokenizer model hist input ml with
  | error e =>
    refine ⟨?_, ?_⟩
    · simp [generate_response, h]
    · intro r out hok
      exact absurd hok (by simp)
  | ok p =>
    obtain ⟨r0, out0⟩ := p
    refine ⟨?_, ?_⟩
    · simp [generate_response, h]
    · intro r out hok
      simp only [Except.ok.injEq, Prod.mk.injEq] at hok
      obtain ⟨hr, ho⟩ := hok
      subst hr; subst ho
      simp [generate_response, h]

/-- Claim C3: any exception inside the response generator is converted into
the user-visible apology string returned in place of the assistant text,
and the session token history is set to absent after that send. -/
theorem failure_caught_as_apology (tokenizer : Tokenizer) (model : Model)
    (s : SessionState) (input : String) (ml : Nat) (e : String)
    (herr : responsePipeline tokenizer model s.model_chat_history input ml
      = Except.error e) :
    generate_response tokenizer model s.model_chat_history input ml
        = ("Sorry, I encountered an error: " ++ e, none)
    ∧ (sendMessage (.loaded tokenizer model) s input ml).model_chat_history
        = none
    ∧ (sendMessage (.loaded tokenizer model) s input ml).chat_history
        = s.chat_history ++ [(Role.user, input),
            (Role.ai, "Sorry, I encountered an error: " ++ e)] := by
  have hg : generate_response tokenizer model s.model_chat_history input ml
      = ("Sorry, I encountered an error: " ++ e, none) := by
    simp [generate_response, herr]
  exact ⟨hg, by simp [sendMessage, sendMessageFull, hg],
    by simp [sendMessage, sendMessageFull, hg]⟩

/-- Claim C6: for every successful generation the decoded assistant text is
produced only from the token span of the model output beyond the input
length, and special tokens — including the end-of-turn marker — are
discarded before decoding, so none of them reaches the displayed text. -/
theorem decoded_span_excludes_specials (tokenizer : Tokenizer) (model : Model)
    (hist : Option (List Token)) (input : String) (ml : Nat)
    (r : String) (out : List Token)
    (hok : responsePipeline tokenizer model hist input ml
      = Except.ok (r, out)) :
    ∃ enc span,
      tokenizer.encode (input ++ tokenizer.eos_token) = Except.ok enc
      ∧ span = (out.drop (botInput hist enc).length).filter
          (fun t => !decide (t ∈ tokenizer.special_tokens))
      ∧ tokenizer.decodeRaw span = Except.ok r
      ∧ (∀ t ∈ span, t ∉ tokenizer.special_tokens)
      ∧ tokenizer.eos_token_id ∉ span := by
  obtain ⟨enc, henc, hgen, hdec⟩ :=
    responsePipeline_ok_inv tokenizer model hist input ml r out hok
  refine ⟨enc, _, henc, rfl, hdec, ?_, ?_⟩
  · intro t ht
    have := List.of_mem_filter ht
    simpa using this
  · intro hmem
    have := List.of_mem_filter hmem
    simp at this
    exact this tokenizer.eos_mem

/-- The concatenated generation input, with an absent history read as the
empty token list. -/
theorem botInput_getD (hist : Option (List Token)) (enc : List Token) :
    botInput hist enc = hist.getD [] ++ enc := by
  cases hist <;> simp [botInput]

/-- Claim C1 (amended): provided the generation routine returns an
extension of its input, every send that leaves the token history present
extends the prior history concatenated with the newly encoded user turn, so
the history length is non-decreasing on successful sends; the explicit
clear action resets the history to absent. -/
theorem token_history_extends (tokenizer : Tokenizer) (model : Model)
    (hext : ∀ cfg inp out, model.generate cfg inp = Except.ok out → inp <+: out)
    (s : SessionState) (input : String) (ml : Nat) :
    (∀ h2, (sendMessage (.loaded tokenizer model) s input ml).model_chat_history
        = some h2 →
      ∃ enc, tokenizer.encode (input ++ tokenizer.eos_token) = Except.ok enc
        ∧ (s.model_chat_history.getD [] ++ enc) <+: h2
        ∧ tokenHistoryLength s.model_chat_history ≤ h2.length)
    ∧ (clearHistory s).model_chat_history = none := by
  refine ⟨?_, rfl⟩
  intro h2 hsome
  have hgr : (generate_response tokenizer model s.model_chat_history input ml).2
      = some h2 := hsome
  cases hp : responsePipeline tokenizer model s.model_chat_history input ml with
  | error e =>
    simp [generate_response, hp] at hgr
  | ok p =>
    obtain ⟨r, out⟩ := p
    have hout : out = h2 := by
      simp [generate_response, hp] at hgr
      exact hgr
    subst hout
    obtain ⟨enc, henc, hgen, _⟩ :=
      responsePipeline_ok_inv tokenizer model s.model_chat_history input ml r out hp
    have hpre := hext _ _ _ hgen
    rw [botInput_getD] at hpre
    refine ⟨enc, henc, hpre, ?_⟩
    have h1 := hpre.length_le
    have h2l : tokenHistoryLength s.model_chat_history
        ≤ (s.model_chat_history.getD [] ++ enc).length := by
      simp [tokenHistoryLength]
    omega

/-- Appending one exchange to a well-formed transcript. -/
theorem turnPairs_append (l : List (String × String)) (p : String × String) :
    turnPairs (l ++ [p]) = turnPairs l ++ [(Role.user, p.1), (Role.ai, p.2)] := by
  obtain ⟨u, a⟩ := p
  induction l with
  | nil => rfl
  | cons q rest ih =>
    obtain ⟨u2, a2⟩ := q
    simp [turnPairs, ih]

/-- A transcript of n exchanges has 2n turns. -/
theorem turnPairs_length (l : List (String × String)) :
    (turnPairs l).length = 2 * l.length := by
  induction l with
  | nil => rfl
  | cons q rest ih =>
    obtain ⟨u, a⟩ := q
    simp [turnPairs, ih]
    omega

/-- A transcript of exchanges alternates user and assistant entries
starting with a user entry. -/
theorem turnPairs_alternates (l : List (String × String)) :
    alternatesFromUser (turnPairs l) := by
  induction l with
  | nil =>
    intro i h
    simp [turnPairs] at h
  | cons q rest ih =>
    obtain ⟨u, a⟩ := q
    intro i h
    match i with
    | 0 => rfl
    | 1 => rfl
    | (n + 2) =>
      have h2 : n < (turnPairs rest).length := by
        simp [turnPairs] at h
        omega
      have hstep : (turnPairs ((u, a) :: rest)).get ⟨n + 2, h⟩
          = (turnPairs rest).get ⟨n, h2⟩ := rfl
      rw [hstep, ih n h2]
      have hmod : (n + 2) % 2 = n % 2 := by omega
      rw [hmod]

/-- A send with the model loaded appends the user turn and then the
assistant turn produced by the response generator. -/
theorem sendMessage_loaded_chat (tokenizer : Tokenizer) (model : Model)
    (s : SessionState) (input : String) (ml : Nat) :
    (sendMessage (.loaded tokenizer model) s input ml).chat_history
      = s.chat_history ++ [(Role.user, input),
          (Role.ai, (generate_response tokenizer model
              s.model_chat_history input ml).1)] := rfl

/-- Folding sends over a well-formed transcript yields the transcript
extended by one exchange per input, with the generated replies. -/
theorem runSends_transcript (tokenizer : Tokenizer) (model : Model) (ml : Nat) :
    ∀ (inputs : List String) (s : SessionState) (ps : List (String × String)),
      s.chat_history = turnPairs ps →
      ∃ replies : List String, replies.length = inputs.length ∧
        (runSends (.loaded tokenizer model) ml inputs s).chat_history
          = turnPairs (ps ++ inputs.zip replies) := by
  intro inputs
  induction inputs with
  | nil =>
    intro s ps hs
    exact ⟨[], rfl, by simpa [runSends] using hs⟩
  | cons inp rest ih =>
    intro s ps hs
    have hstep : (sendMessage (.loaded tokenizer model) s inp ml).chat_history
        = turnPairs (ps ++ [(inp, (generate_response tokenizer model
            s.model_chat_history inp ml).1)]) := by
      rw [sendMessage_loaded_chat, hs, turnPairs_append]
    obtain ⟨replies, hlen, hcat⟩ :=
      ih (sendMessage (.loaded tokenizer model) s inp ml) _ hstep
    refine ⟨(generate_response tokenizer model
        s.model_chat_history inp ml).1 :: replies, by simp [hlen], ?_⟩
    have hrun : runSends (.loaded tokenizer model) ml (inp :: rest) s
        = runSends (.loaded tokenizer model) ml rest
            (sendMessage (.loaded tokenizer model) s inp ml) := rfl
    rw [hrun, hcat]
    congr 1
    simp

/-- Every reachable turn list is a transcript of complete exchanges. -/
theorem reachable_turnPairs :
    ∀ s, Reachable s → ∃ ps, s.chat_history = turnPairs ps := by
  intro s h
  induction h with
  | init => exact ⟨[], rfl⟩
  | clear _ _ => exact ⟨[], rfl⟩
  | send load input ml _ ih =>
    obtain ⟨ps, hps⟩ := ih
    cases load with
    | failed => exact ⟨ps, hps⟩
    | loaded tokenizer model =>
      next s2 _ =>
        refine ⟨ps ++ [(input, (generate_response tokenizer model
            s2.model_chat_history input ml).1)], ?_⟩
        rw [sendMessage_loaded_chat, hps, turnPairs_append]

/-- Claim C1 counterexample: after one successful send the token history
contains a generated token and so differs from the concatenation of the
encode steps, and a later failing send (not a clear action) strictly
decreases the token history length. -/
theorem token_history_claim_refuted :
    (sendMessage (.loaded testTokenizer flakyModel) initState "a" 10).model_chat_history
        = some [97, 33, 55]
    ∧ testTokenizer.encode ("a" ++ testTokenizer.eos_token) = Except.ok [97, 33]
    ∧ (some [97, 33, 55] : Option (List Token)) ≠ some [97, 33]
    ∧ (sendMessage (.loaded testTokenizer flakyModel)
          (sendMessage (.loaded testTokenizer flakyModel) initState "a" 10)
          "b" 10).model_chat_history = none
    ∧ tokenHistoryLength (sendMessage (.loaded testTokenizer flakyModel)
          (sendMessage (.loaded testTokenizer flakyModel) initState "a" 10)
          "b" 10).model_chat_history
        < tokenHistoryLength (sendMessage (.loaded testTokenizer flakyModel)
            initState "a" 10).model_chat_history :=
  ⟨rfl, rfl, by decide, rfl, by decide⟩

/-- Witness for the amended claim C1 at a concrete model and input. -/
theorem c1_witness :
    ∃ enc, testTokenizer.encode ("a" ++ testTokenizer.eos_token) = Except.ok enc
      ∧ (initState.model_chat_history.getD [] ++ enc) <+: [97, 33, 55]
      ∧ tokenHistoryLength initState.model_chat_history
          ≤ ([97, 33, 55] : List Token).length :=
  (token_history_extends testTokenizer okModel okModel_extends
    initState "a" 10).1 [97, 33, 55] rfl

/-- Claim C2: when the model loads, after N sends the turn list is exactly
one user entry followed by one assistant entry per exchange, hence has
length 2N. -/
theorem transcript_two_turns_per_send (tokenizer : Tokenizer) (model : Model)
    (ml : Nat) (inputs : List String) :
    ∃ replies : List String, replies.length = inputs.length
      ∧ (runSends (.loaded tokenizer model) ml inputs initState).chat_history
          = turnPairs (inputs.zip replies)
      ∧ (runSends (.loaded tokenizer model) ml inputs initState).chat_history.length
          = 2 * inputs.length := by
  obtain ⟨replies, hlen, hcat⟩ :=
    runSends_transcript tokenizer model ml inputs initState [] rfl
  rw [List.nil_append] at hcat
  refine ⟨replies, hlen, hcat, ?_⟩
  rw [hcat, turnPairs_length, List.length_zip, hlen, Nat.min_self]

/-- Claim C10: whenever the model is loaded a send appends exactly the user
turn followed by the assistant turn (the apology string standing in when
generation fails), and every reachable turn list alternates user and
assistant entries starting with a user entry. -/
theorem send_appends_user_then_ai :
    (∀ (tokenizer : Tokenizer) (model : Model) (s : SessionState)
        (input : String) (ml : Nat),
      (sendMessage (.loaded tokenizer model) s input ml).chat_history
        = s.chat_history ++ [(Role.user, input),
            (Role.ai, (generate_response tokenizer model
                s.model_chat_history input ml).1)])
    ∧ ∀ s, Reachable s → alternatesFromUser s.chat_history := by
  refine ⟨fun tokenizer model s input ml => rfl, ?_⟩
  intro s h
  obtain ⟨ps, hps⟩ := reachable_turnPairs s h
  rw [hps]
  exact turnPairs_alternates ps

/-- Witness for claim C10 at a concrete failing model and the fresh
session. -/
theorem c10_witness :
    (sendMessage (.loaded testTokenizer failModel) initState "hi" 50).chat_history
      = initState.chat_history ++ [(Role.user, "hi"),
          (Role.ai, (generate_response testTokenizer failModel
              initState.model_chat_history "hi" 50).1)]
    ∧ alternatesFromUser initState.chat_history :=
  ⟨send_appends_user_then_ai.1 testTokenizer failModel initState "hi" 50,
   send_appends_user_then_ai.2 initState Reachable.init⟩

/-- Witness for claim C3 at a concrete always-raising model. -/
theorem c3_witness :
    generate_response testTokenizer failModel initState.model_chat_history "a" 5
        = ("Sorry, I encountered an error: " ++ "boom", none)
    ∧ (sendMessage (.loaded testTokenizer failModel)
          initState "a" 5).model_chat_history = none
    ∧ (sendMessage (.loaded testTokenizer failModel) initState "a" 5).chat_history
        = initState.chat_history ++ [(Role.user, "a"),
            (Role.ai, "Sorry, I encountered an error: " ++ "boom")] :=
  failure_caught_as_apology testTokenizer failModel initState "a" 5 "boom" rfl

/-- Witness for claim C9 at a concrete always-raising model. -/
theorem c9_witness :
    (generate_response testTokenizer failModel none "a" 5).2 = none :=
  (generate_response_total testTokenizer failModel none "a" 5).1.mpr ⟨"boom", rfl⟩

/-- Witness for claim C6 at a concrete succeeding model. -/
theorem c6_witness :
    ∃ enc span,
      testTokenizer.encode ("a" ++ testTokenizer.eos_token) = Except.ok enc
      ∧ span = (([97, 33, 55] : List Token).drop (botInput none enc).length).filter
          (fun t => !decide (t ∈ testTokenizer.special_tokens))
      ∧ testTokenizer.decodeRaw span = Except.ok "7"
      ∧ (∀ t ∈ span, t ∉ testTokenizer.special_tokens)
      ∧ testTokenizer.eos_token_id ∉ span :=
  decoded_span_excludes_specials testTokenizer okModel none "a" 10 "7"
    [97, 33, 55] rfl
